import Mathlib

/-!
Shallow embedding of `src/get_RSS.py` (Nafsae/paper-feed) and proofs about it.

The script aggregates journal RSS feeds, filters entries by AND/NOT keyword
queries, deduplicates against the previous output by entry id, sorts by
publication date descending, truncates to `MAX_ITEMS`, and serializes.

Modelling conventions:
- Python strings are Lean `String`s; Python's substring test `k in text` is
  `strContains`, defined over the character lists.
- Python `str.strip()` is `pyStrip` (drops ASCII whitespace from both ends).
- `datetime` values are modelled as `Int` timestamps (only their ordering and
  equality matter to the pipeline).
- `feedparser` results are modelled as explicit structures (`ParsedFeed`);
  `feedparser` signals malformed input via its `bozo` flag rather than raising.
- Python's stable `list.sort(key=..., reverse=True)` is modelled by Mathlib's
  stable `List.insertionSort` with the relation "has pub_date ≥".
-/

namespace GetRSS

/-- One normalized feed entry, the unit of data of the pipeline
(the dictionaries built in `parse_rss` / `get_existing_items`).
`is_old` defaults to `false`, matching Python's `item.get('is_old', False)`
for freshly fetched entries that carry no such key. -/
structure Entry where
  title : String
  link : String
  pub_date : Int
  summary : String
  journal : String
  id : String
  is_old : Bool := false
deriving DecidableEq, Repr

/-- Is `needle` a prefix of `haystack` (character lists)? -/
def listIsPrefixOf : List Char → List Char → Bool
  | [], _ => true
  | _ :: _, [] => false
  | a :: as, b :: bs => a == b && listIsPrefixOf as bs

/-- Does `haystack` contain `needle` as a contiguous substring? -/
def listContainsSub (needle : List Char) : List Char → Bool
  | [] => listIsPrefixOf needle []
  | b :: bs => listIsPrefixOf needle (b :: bs) || listContainsSub needle bs

/-- Python's substring containment `needle in hay` for strings. -/
def strContains (hay needle : String) : Bool :=
  listContainsSub needle.data hay.data

/-- Python's `s.startswith(pre)`. -/
def pyStartsWith (s pre : String) : Bool :=
  listIsPrefixOf pre.data s.data

/-- Python's `str.lower()` on one character (ASCII range; the pipeline's
keyword matching only relies on ASCII case folding). -/
def pyLowerChar (c : Char) : Char :=
  if 'A' ≤ c && c ≤ 'Z' then Char.ofNat (c.toNat + 32) else c

/-- Python's `str.lower()`. -/
def pyLower (s : String) : String :=
  ⟨s.data.map pyLowerChar⟩

/-- Worker for `splitOnChars`: scans left to right for the leftmost
occurrence of `sep`, accumulating the current token in reverse in `acc`.
`fuel` only serves structural termination; it starts at the input length
and cannot run out when `sep` is non-empty (every step consumes a
character). -/
def splitGo (sep : List Char) : Nat → List Char → List Char → List (List Char)
  | _, [], acc => [acc.reverse]
  | 0, rest, acc => [acc.reverse ++ rest]
  | fuel + 1, c :: rest, acc =>
    if listIsPrefixOf sep (c :: rest) then
      acc.reverse :: splitGo sep fuel ((c :: rest).drop sep.length) []
    else
      splitGo sep fuel rest (c :: acc)

/-- Split on a non-empty separator, leftmost-first and non-overlapping. -/
def splitOnChars (sep l : List Char) : List (List Char) :=
  splitGo sep l.length l []

/-- Python's `s.split(sep)` for a non-empty separator string (the script
splits on `' NOT '`, `' AND '`, `'\n'` and `';'`, all non-empty). -/
def pySplit (s sep : String) : List String :=
  (splitOnChars sep.data s.data).map (fun l => ⟨l⟩)

/-- The characters removed by Python's `str.strip()` (ASCII whitespace). -/
def isPySpace (c : Char) : Bool :=
  c == ' ' || c == '\t' || c == '\n' || c == '\r' || c == '\x0b' || c == '\x0c'

/-- Drop trailing `isPySpace` characters. -/
def rstripChars : List Char → List Char
  | [] => []
  | a :: t =>
    match rstripChars t with
    | [] => if isPySpace a then [] else [a]
    | b :: u => a :: b :: u

/-- Drop leading and trailing `isPySpace` characters. -/
def stripChars (l : List Char) : List Char :=
  rstripChars (l.dropWhile isPySpace)

/-- Python's `str.strip()`. -/
def pyStrip (s : String) : String :=
  ⟨stripChars s.data⟩

/-- The text `match_entry` searches:
`(entry['title'] + " " + entry['summary']).lower()`. -/
def textToSearch (e : Entry) : String :=
  pyLower (e.title ++ " " ++ e.summary)

/-- Source: `not_parts = query.split(' NOT ')` in `match_entry`. -/
def notParts (query : String) : List String :=
  pySplit query " NOT "

/-- Source: `and_part = not_parts[0]` (a Python split never returns an empty list). -/
def andPart (query : String) : String :=
  (notParts query).headD ""

/-- Source: `exclude_keywords = [k.strip().lower() for k in not_parts[1:]]`
(the guard `if len(not_parts) > 1 else []` is the same list). -/
def excludeKeywords (query : String) : List String :=
  ((notParts query).drop 1).map (fun k => pyLower (pyStrip k))

/-- Source: `and_keywords = [k.strip().lower() for k in and_part.split(' AND ')]`. -/
def andKeywords (query : String) : List String :=
  (pySplit (andPart query) " AND ").map (fun k => pyLower (pyStrip k))

/-- The per-query body of `match_entry`'s loop: every AND keyword occurs in
the searched text and no exclude keyword does. -/
def queryMatches (text : String) (query : String) : Bool :=
  (andKeywords query).all (fun k => strContains text k) &&
    !((excludeKeywords query).any (fun k => strContains text k))

/-- Function `match_entry(entry, queries)` (lines 97–131): the loop returns `True` on
the first query whose AND keywords all occur and whose exclude keywords all
do not; otherwise `False` falls out at the end. -/
def match_entry (e : Entry) (queries : List String) : Bool :=
  queries.any (queryMatches (textToSearch e))

/-- Constant `MAX_ITEMS = 1000` (line 11). -/
def MAX_ITEMS : Nat := 1000

/-- Characters matched by the regex `[\x00-\x08\x0b\x0c\x0e-\x1f]` in
`remove_illegal_xml_chars` (line 34). -/
def isIllegalXmlChar (c : Char) : Bool :=
  decide (c.toNat ≤ 0x08) || c.toNat == 0x0b || c.toNat == 0x0c ||
    (decide (0x0e ≤ c.toNat) && decide (c.toNat ≤ 0x1f))

/-- Function `remove_illegal_xml_chars(text)` (lines 30–35): `re.sub` with an empty
replacement deletes every matched character; the `if not text: return ""`
guard coincides with filtering the empty string. -/
def remove_illegal_xml_chars (text : String) : String :=
  ⟨text.data.filter (fun c => !(isIllegalXmlChar c))⟩

/-- One `rfeed.Item` as built in `generate_rss_xml` (lines 149–156). -/
structure RssItem where
  title : String
  link : String
  description : String
  author : String
  guid : String
  pubDate : Int
deriving DecidableEq, Repr

/-- The title synthesis of `generate_rss_xml` (lines 140–143): prefix the
journal in brackets unless the entry is an old one. -/
def outputTitle (item : Entry) : String :=
  if !(item.is_old) then "[" ++ item.journal ++ "] " ++ item.title
  else item.title

/-- The per-item body of `generate_rss_xml`'s loop (lines 140–156). -/
def renderItem (item : Entry) : RssItem :=
  { title := remove_illegal_xml_chars (outputTitle item)
    link := item.link
    description := remove_illegal_xml_chars item.summary
    author := remove_illegal_xml_chars item.journal
    guid := item.id
    pubDate := item.pub_date }

/-- The sort key ordering of `items.sort(key=lambda x: x['pub_date'],
reverse=True)`: `a` may precede `b` iff `a`'s date is at least `b`'s. -/
def pubGE (a b : Entry) : Prop :=
  b.pub_date ≤ a.pub_date

instance : DecidableRel pubGE := fun a b => Int.decLe b.pub_date a.pub_date

instance : IsTotal Entry pubGE :=
  ⟨fun a b => Int.le_total b.pub_date a.pub_date⟩

instance : IsTrans Entry pubGE :=
  ⟨fun _ _ _ hab hbc => le_trans hbc hab⟩

/-- Source: `items.sort(key=lambda x: x['pub_date'], reverse=True)` (line 137):
Python's sort is stable, as is `List.insertionSort`, which inserts each
element before the later-listed elements with an equal key. -/
def sortedEntries (items : List Entry) : List Entry :=
  items.insertionSort pubGE

/-- Source: `items = items[:MAX_ITEMS]` after sorting (line 138). -/
def selectedEntries (items : List Entry) : List Entry :=
  (sortedEntries items).take MAX_ITEMS

/-- The item list serialized by `generate_rss_xml` (lines 133–170): sort by
`pub_date` descending, truncate to `MAX_ITEMS`, render each entry. The
surrounding `Feed` fields (title, link, description, language) are fixed
constants and `lastBuildDate` is the wall clock, so this list determines
the output document up to `lastBuildDate`. -/
def generate_rss_items (items : List Entry) : List RssItem :=
  (selectedEntries items).map renderItem

/-- One entry as surfaced by `feedparser` when re-reading the output file
in `get_existing_items` (lines 79–91): `published` models
`entry.get('published_parsed')` and `id` models `entry.get('id', ...)`,
both `none` when the field is absent. -/
structure RawFeedEntry where
  title : String := ""
  link : String := ""
  published : Option Int := none
  summary : String := ""
  author : String := ""
  id : Option String := none
deriving DecidableEq, Repr

/-- The result of `feedparser.parse` on the existing output file: the
`bozo` flag is set when the XML was malformed (feedparser recovers what it
can instead of raising), plus the recovered entries. -/
structure ParsedFeed where
  bozo : Bool
  entries : List RawFeedEntry
deriving DecidableEq, Repr

/-- Function `convert_struct_time_to_datetime` (lines 37–40): `none` (Python
`None`) falls back to `datetime.datetime.now()`, passed here as `now`. -/
def convert_struct_time_to_datetime (now : Int) : Option Int → Int
  | none => now
  | some t => t

/-- Function `get_existing_items()` (lines 68–95). `fileExists` models
`os.path.exists(OUTPUT_FILE)` and `parsed` the `feedparser.parse` result.
When `parsed.bozo` is set the code only prints a warning
(`"... Ignoring old items."`) and then builds the entry list from
`feed.entries` regardless, so the result does not depend on `bozo`. -/
def get_existing_items (fileExists : Bool) (parsed : ParsedFeed) (now : Int) :
    List Entry :=
  if fileExists then
    parsed.entries.map (fun entry =>
      { title := entry.title
        link := entry.link
        pub_date := convert_struct_time_to_datetime now entry.published
        summary := entry.summary
        journal := entry.author
        id := entry.id.getD entry.link
        is_old := true })
  else []

/-- How one serialized `RssItem` comes back through `feedparser` on the
next run: title, link, guid, author and description round-trip to the
fields of the same names, and the publish date is recovered from the
serialized `pubDate` (the output writer emits every field it later
reads). -/
def rawOfItem (item : RssItem) : RawFeedEntry :=
  { title := item.title
    link := item.link
    published := some item.pubDate
    summary := item.description
    author := item.author
    id := some item.guid }

/-- One iteration of `main`'s inner loop (lines 189–196), acting on the
pair (`all_entries`, `seen_ids`): a fetched entry whose id was already
seen is skipped; otherwise, if it matches some query, it is appended and
its id recorded. The Python `set` of seen ids is modelled as a list whose
membership is what `in` tests. -/
def aggregateStep (queries : List String) (acc : List Entry × List String)
    (e : Entry) : List Entry × List String :=
  if acc.2.contains e.id then acc
  else if match_entry e queries then (acc.1 ++ [e], acc.2 ++ [e.id])
  else acc

/-- The aggregation of `main` (lines 180–196): start from the existing
entries and their ids as `seen_ids`, then fold the inner loop over the
fetched entries (the per-journal loops traverse exactly the concatenation
of the per-journal fetch results, with state carried across journals). -/
def aggregate (existing_entries fetched : List Entry)
    (queries : List String) : List Entry :=
  (fetched.foldl (aggregateStep queries)
    (existing_entries, existing_entries.map Entry.id)).1

/-- Function `load_config(filename, env_var_name)` (lines 14–28). `envContent` is
`some c` when `env_var_name` is given and `os.environ.get` returns the
non-empty string `c` (Python treats an unset or empty variable as falsy);
`fileExists` models `os.path.exists(filename)`, `fileLines` the file's
lines with their trailing newline removed. Note that in the file branch
the comment test `line.startswith('#')` applies to the raw line, before
`strip()`. -/
def load_config (envContent : Option String) (fileExists : Bool)
    (fileLines : List String) : List String :=
  match envContent with
  | some content =>
    if content.data.contains '\n' then
      ((pySplit content "\n").map pyStrip).filter (fun line => line != "")
    else
      ((pySplit content ";").map pyStrip).filter (fun line => line != "")
  | none =>
    if fileExists then
      (fileLines.filter
        (fun line => pyStrip line != "" && !(pyStartsWith line "#"))).map pyStrip
    else []

/-- Function `main()` (lines 172–200) as a function of its environment: the two
`load_config` results, the state of the existing output file, and the
per-URL fetch results (`parse_rss`). Returns `none` when the
configuration guard `if not rss_urls or not queries` fires — no fetch
is performed and nothing is written, so the prior output file is left
unchanged — and otherwise `some` of the item list written by
`generate_rss_xml`. -/
def mainRun (rss_urls queries : List String) (fileExists : Bool)
    (parsed : ParsedFeed) (now : Int) (fetchF : String → List Entry) :
    Option (List RssItem) :=
  if rss_urls.isEmpty || queries.isEmpty then none
  else
    some (generate_rss_items
      (aggregate (get_existing_items fileExists parsed now)
        ((rss_urls.map fetchF).flatten) queries))

/-! ### Helper lemmas about the string operations -/

/-- The empty string is a substring of every string. -/
theorem listContainsSub_nil (l : List Char) : listContainsSub [] l = true := by
  cases l <;> simp [listContainsSub, listIsPrefixOf]

/-- The empty string is a substring of every string (string form). -/
theorem strContains_empty (hay : String) : strContains hay "" = true :=
  listContainsSub_nil hay.data

/-- Unfolding equation for `rstripChars` on a cons cell. -/
theorem rstripChars_cons_eq (a : Char) (t : List Char) :
    rstripChars (a :: t) =
      match rstripChars t with
      | [] => if isPySpace a then [] else [a]
      | b :: u => a :: b :: u := rfl

/-- Dropping trailing whitespace twice is dropping it once. -/
theorem rstripChars_rstripChars (l : List Char) :
    rstripChars (rstripChars l) = rstripChars l := by
  induction l with
  | nil => rfl
  | cons a t ih =>
    rw [rstripChars_cons_eq]
    cases h : rstripChars t with
    | nil =>
      by_cases ha : isPySpace a = true
      · simp [ha, rstripChars]
      · simp only [Bool.not_eq_true] at ha
        simp [ha, rstripChars]
    | cons b u =>
      rw [h] at ih
      simp [rstripChars_cons_eq, ih]

/-- Lemma: `rstripChars` keeps the head of a non-empty list when it returns a
non-empty list. -/
theorem rstripChars_head (a : Char) (t : List Char) :
    rstripChars (a :: t) = [] ∨ ∃ u, rstripChars (a :: t) = a :: u := by
  rw [rstripChars_cons_eq]
  cases rstripChars t with
  | nil =>
    by_cases ha : isPySpace a = true
    · left; simp [ha]
    · right
      refine ⟨[], ?_⟩
      simp only [Bool.not_eq_true] at ha
      simp [ha]
  | cons b u => right; exact ⟨b :: u, rfl⟩

/-- The head of `l.dropWhile p` never satisfies `p`. -/
theorem dropWhile_head_not {p : Char → Bool} :
    ∀ (l : List Char) (a : Char) (t : List Char),
      l.dropWhile p = a :: t → p a = false := by
  intro l
  induction l with
  | nil => intro a t h; simp [List.dropWhile] at h
  | cons x xs ih =>
    intro a t h
    by_cases hx : p x = true
    · rw [List.dropWhile_cons_of_pos hx] at h; exact ih a t h
    · simp only [Bool.not_eq_true] at hx
      rw [List.dropWhile_cons_of_neg (by simp [hx])] at h
      cases h; exact hx

/-- Stripping is idempotent on character lists. -/
theorem stripChars_stripChars (l : List Char) :
    stripChars (stripChars l) = stripChars l := by
  unfold stripChars
  have hdrop : (rstripChars (l.dropWhile isPySpace)).dropWhile isPySpace =
      rstripChars (l.dropWhile isPySpace) := by
    cases hd : l.dropWhile isPySpace with
    | nil => simp [rstripChars]
    | cons a t =>
      have ha : isPySpace a = false := dropWhile_head_not _ _ _ hd
      rcases rstripChars_head a t with h | ⟨u, h⟩
      · simp [h]
      · rw [h, List.dropWhile_cons_of_neg (by simp [ha])]
  rw [hdrop, rstripChars_rstripChars]

/-- Python's `strip` is idempotent. -/
theorem pyStrip_pyStrip (s : String) : pyStrip (pyStrip s) = pyStrip s :=
  congrArg String.mk (stripChars_stripChars s.data)

/-- A concrete entry used in examples and witnesses: fields
(title, link, pub_date, summary, journal, id, is_old) positionally. -/
def mkEntry (title summary journal : String) (d : Int) (i : String)
    (old : Bool) : Entry :=
  ⟨title, "", d, summary, journal, i, old⟩

-- temporary sanity checks (spec §8 examples)
example : match_entry (mkEntry "Segmentation" "" "" 0 "" false)
    ["segmentation"] = true := by decide
example : match_entry (mkEntry "malignant tumor" "" "" 0 "" false)
    ["tumor NOT benign"] = true := by decide
example : match_entry (mkEntry "benign tumor" "" "" 0 "" false)
    ["tumor NOT benign"] = false := by decide
example : match_entry (mkEntry "brain" "scan" "" 0 "" false)
    ["brain AND tumor"] = false := by decide
example : match_entry (mkEntry "Brain" "tumor imaging" "" 0 "" false)
    ["brain AND tumor"] = true := by decide
example : match_entry (mkEntry "x" "" "" 0 "" false)
    ["a", "b NOT c"] = false := by decide
example : match_entry (mkEntry "b" "" "" 0 "" false)
    ["a", "b NOT c"] = true := by decide

/-! ### C1 -/

/-- C1: `match_entry` returns `true` iff some query in the list satisfies
both conditions over the lowercased concatenation of the entry's title, a
space, and its summary: every AND-term (the segment of the query before
the first `' NOT '` separator, split on `' AND '`, each piece trimmed and
lowercased — `andKeywords`) is a substring of that text, and no excluded
term (each segment after a `' NOT '` separator, trimmed and lowercased —
`excludeKeywords`) is a substring of that text. -/
theorem C1_match_entry_iff (e : Entry) (queries : List String) :
    match_entry e queries = true ↔
      ∃ q ∈ queries,
        (∀ k ∈ andKeywords q, strContains (textToSearch e) k = true) ∧
        ∀ k ∈ excludeKeywords q, ¬ strContains (textToSearch e) k = true := by
  simp [match_entry, queryMatches, List.any_eq_true, List.all_eq_true]

/-! ### C10 -/

/-- C10 counterexample: the claim as stated is false. The query list
`["c AND "]` contains a query whose AND-clause splits into a term that
trims to the empty string (`"" ∈ andKeywords "c AND "`), yet `match_entry`
returns `false` on an entry whose text does not contain `"c"`: the other
AND-term `"c"` is still required. -/
theorem C10_counterexample :
    ("" ∈ andKeywords "c AND ") ∧
      match_entry (mkEntry "a" "b" "" 0 "" false) ["c AND "] = false := by
  decide

/-- C10 (amended): `match_entry` returns `true` for every entry whenever
the query list contains the empty-string query — or, more generally, a
query with no `' NOT '` exclusions all of whose AND-terms trim and
lowercase to the empty string (such as `" AND "`): the empty string is a
substring of every searched text. -/
theorem C10_blank_query (e : Entry) (queries : List String) (q : String)
    (hq : q ∈ queries) (hex : excludeKeywords q = [])
    (hand : ∀ k ∈ andKeywords q, k = "") :
    match_entry e queries = true := by
  simp only [match_entry, List.any_eq_true]
  refine ⟨q, hq, ?_⟩
  simp only [queryMatches, hex, List.any_nil, Bool.not_false, Bool.and_true,
    List.all_eq_true]
  intro k hk
  rw [hand k hk]
  exact strContains_empty _

/-- C10 witness: the empty-string query makes a concrete entry match. -/
theorem C10_blank_query_witness :
    match_entry (mkEntry "xyz" "" "" 0 "" false) [""] = true :=
  C10_blank_query _ [""] "" (by decide) (by decide) (by decide)

/-! ### C7 -/

/-- C7: for every entry serialized by `generate_rss_xml`, the synthesized
title is `"[" ++ journal ++ "] " ++ title` when `is_old` is `false` (the
flag is absent, hence `false`, on freshly fetched entries) and the
original title unchanged when `is_old` is `true`; that synthesized title
(after control-character sanitization, see C8) is the serialized item's
title. -/
theorem C7_title_formatting (e : Entry) :
    (e.is_old = false → outputTitle e = "[" ++ e.journal ++ "] " ++ e.title) ∧
    (e.is_old = true → outputTitle e = e.title) ∧
    (renderItem e).title = remove_illegal_xml_chars (outputTitle e) := by
  refine ⟨fun h => ?_, fun h => ?_, rfl⟩ <;> simp [outputTitle, h]

/-- C7 witness: a fresh entry from journal "Nature" titled "Foo" gets the
title `"[Nature] Foo"`; an old entry keeps `"Foo"`. -/
theorem C7_title_formatting_witness :
    outputTitle (mkEntry "Foo" "" "Nature" 0 "" false) = "[Nature] Foo" ∧
    outputTitle (mkEntry "Foo" "" "Nature" 0 "" true) = "Foo" :=
  ⟨((C7_title_formatting (mkEntry "Foo" "" "Nature" 0 "" false)).1 rfl).trans
      (by decide),
    (C7_title_formatting (mkEntry "Foo" "" "Nature" 0 "" true)).2.1 rfl⟩

/-! ### C8 -/

/-- Every character surviving `remove_illegal_xml_chars` is legal. -/
theorem remove_illegal_all (s : String) :
    (remove_illegal_xml_chars s).data.all
      (fun c => !(isIllegalXmlChar c)) = true := by
  simp only [remove_illegal_xml_chars, List.all_eq_true, List.mem_filter]
  exact fun c hc => hc.2

/-- C8: `remove_illegal_xml_chars` deletes exactly the characters in the
ASCII ranges 0x00–0x08, 0x0B, 0x0C, 0x0E–0x1F (it filters them out, so
they are removed, not escaped), and it is applied to the title, the
summary (serialized as `description`) and the journal (serialized as
`author`) of every serialized item, so no such character appears in those
output fields. -/
theorem C8_sanitization (e : Entry) :
    (∀ s : String, (remove_illegal_xml_chars s).data =
      s.data.filter (fun c => !(isIllegalXmlChar c))) ∧
    (renderItem e).title.data.all (fun c => !(isIllegalXmlChar c)) = true ∧
    (renderItem e).description.data.all
      (fun c => !(isIllegalXmlChar c)) = true ∧
    (renderItem e).author.data.all (fun c => !(isIllegalXmlChar c)) = true :=
  ⟨fun _ => rfl, remove_illegal_all _, remove_illegal_all _,
    remove_illegal_all _⟩

/-! ### C6 -/

/-- C6 counterexample: the claim as stated is false. With no environment
variable and an existing local file whose one line is the indented comment
`"  #x"`, `load_config` returns the element `"#x"`, which does begin with
the comment marker: the code tests `line.startswith('#')` on the raw line
before stripping, so an indented comment survives (and the environment
branch never filters comments at all). -/
theorem C6_counterexample :
    load_config none true ["  #x"] = ["#x"] ∧
      pyStartsWith "#x" "#" = true := by
  decide

/-- C6 (amended): every element returned by `load_config` is non-empty
and equal to itself with surrounding whitespace stripped; but an element
may begin with the comment marker `'#'` — only raw lines of the local
file that start with `'#'` before stripping are skipped, and
environment-sourced content is never comment-filtered. -/
theorem C6_load_config_elems (envContent : Option String)
    (fileExists : Bool) (fileLines : List String) (l : String)
    (hl : l ∈ load_config envContent fileExists fileLines) :
    l ≠ "" ∧ pyStrip l = l := by
  match envContent with
  | some content =>
    simp only [load_config] at hl
    by_cases hn : content.data.contains '\n' = true <;>
      [rw [if_pos hn] at hl; rw [if_neg hn] at hl] <;>
    · rw [List.mem_filter] at hl
      obtain ⟨hmem, hne⟩ := hl
      obtain ⟨raw, _, rfl⟩ := List.mem_map.mp hmem
      exact ⟨by simpa using hne, pyStrip_pyStrip raw⟩
  | none =>
    simp only [load_config] at hl
    by_cases hf : fileExists = true
    · rw [if_pos hf] at hl
      obtain ⟨raw, hraw, rfl⟩ := List.mem_map.mp hl
      rw [List.mem_filter] at hraw
      have hne := hraw.2
      simp only [Bool.and_eq_true, bne_iff_ne, ne_eq] at hne
      exact ⟨hne.1, pyStrip_pyStrip raw⟩
    · rw [if_neg hf] at hl
      simp at hl
/-- C6 witness: the element `"a"` of a one-line config file is non-empty
and already stripped. -/
theorem C6_load_config_elems_witness : ("a" : String) ≠ "" ∧ pyStrip "a" = "a" :=
  C6_load_config_elems none true ["a"] "a" (by decide)

/-! ### C2 -/

/-- C2 counterexample: the claim as stated is false. The code never
deduplicates the prior-output entries among themselves: with a prior
output containing two entries that share the id `"a"` and nothing fetched,
the merged output is those two entries, and its ids are not pairwise
distinct. -/
theorem C2_counterexample :
    ¬ (((aggregate
        [mkEntry "t1" "" "j" 0 "a" true, mkEntry "t2" "" "j" 1 "a" true]
        [] ["q"]).map Entry.id).Nodup) := by
  decide

/-- A fold of `aggregateStep` preserves "the accumulated ids are pairwise
distinct and all of them are recorded as seen". -/
theorem aggregate_foldl_nodup (queries : List String) :
    ∀ (fetched : List Entry) (all : List Entry) (seen : List String),
      (all.map Entry.id).Nodup → (∀ i ∈ all.map Entry.id, i ∈ seen) →
      (((fetched.foldl (aggregateStep queries) (all, seen)).1.map
          Entry.id).Nodup ∧
        ∀ i ∈ (fetched.foldl (aggregateStep queries) (all, seen)).1.map
          Entry.id,
          i ∈ (fetched.foldl (aggregateStep queries) (all, seen)).2) := by
  intro fetched
  induction fetched with
  | nil => intro all seen h1 h2; exact ⟨h1, h2⟩
  | cons e fs ih =>
    intro all seen h1 h2
    rw [List.foldl_cons]
    by_cases hc : e.id ∈ seen
    · rw [show aggregateStep queries (all, seen) e = (all, seen) by
        simp [aggregateStep, hc]]
      exact ih all seen h1 h2
    · have hnotin : e.id ∉ seen := hc
      by_cases hm : match_entry e queries = true
      · rw [show aggregateStep queries (all, seen) e =
            (all ++ [e], seen ++ [e.id]) by
          simp [aggregateStep, hc, hm]]
        apply ih
        · rw [List.map_append, List.nodup_append]
          refine ⟨h1, List.nodup_singleton _, ?_⟩
          intro i hi hi'
          simp only [List.map_cons, List.map_nil, List.mem_singleton] at hi'
          exact hnotin (hi' ▸ h2 i hi)
        · intro i hi
          rw [List.map_append] at hi
          rcases List.mem_append.mp hi with h | h
          · exact List.mem_append.mpr (Or.inl (h2 i h))
          · simp only [List.map_cons, List.map_nil, List.mem_singleton] at h
            exact List.mem_append.mpr (Or.inr (by simp [h]))
      · rw [show aggregateStep queries (all, seen) e = (all, seen) by
          simp [aggregateStep, hc, hm]]
        exact ih all seen h1 h2

/-- C2 (amended): if the prior-output entries have pairwise-distinct ids
(as any output the program itself wrote does), then no two entries of the
merged output share an id: a fetched entry whose id equals the id of any
old entry or of any already-accepted new entry is skipped unconditionally,
even if it matches a query. (As stated over arbitrary prior-output entry
lists the claim fails, because the old entries themselves are never
deduplicated — see the counterexample.) -/
theorem C2_dedup (old fetched : List Entry) (queries : List String)
    (hold : (old.map Entry.id).Nodup) :
    ((aggregate old fetched queries).map Entry.id).Nodup :=
  (aggregate_foldl_nodup queries fetched old (old.map Entry.id) hold
    (fun _ hi => hi)).1

/-- C2 witness: one old entry plus one fetched entry re-using its id
merge to a list with pairwise-distinct ids (the duplicate is skipped). -/
theorem C2_dedup_witness :
    ((aggregate [mkEntry "t1" "" "j" 5 "a" true]
        [mkEntry "N" "" "j" 6 "a" false] [""]).map Entry.id).Nodup :=
  C2_dedup _ _ _ (by decide)

/-! ### C5 -/

/-- C5: when the loaded journal list or the loaded keyword list is empty,
`main` returns at the configuration guard: no fetching happens (the
result does not depend on `fetchF`) and nothing is written (`none`), so
the existing output file is left unchanged. -/
theorem C5_empty_config (rss_urls queries : List String) (fileExists : Bool)
    (parsed : ParsedFeed) (now : Int) (fetchF : String → List Entry)
    (h : rss_urls = [] ∨ queries = []) :
    mainRun rss_urls queries fileExists parsed now fetchF = none := by
  rcases h with h | h <;> simp [mainRun, h]

/-- C5 witness: a non-empty journal list with an empty keyword list
aborts the run. -/
theorem C5_empty_config_witness :
    mainRun ["http://x"] [] true ⟨false, []⟩ 0 (fun _ => []) = none :=
  C5_empty_config _ _ _ _ _ _ (Or.inr rfl)

/-! ### C4 -/

/-- C4: the code does not do what the claim (and its own warning message
"Ignoring old items.") says. With the output file present and a parse
result whose `bozo` flag signals malformed XML, `get_existing_items` still
returns the entries feedparser recovered — here one entry — instead of
zero entries; only the warning is printed. -/
theorem C4_bozo_entries_kept :
    get_existing_items true
      ⟨true, [⟨"T", "L", some 5, "S", "J", some "I"⟩]⟩ 0 =
      [⟨"T", "L", 5, "S", "J", "I", true⟩] := by
  decide

/-! ### Sorting helpers, shared by C3 and C9 -/

/-- The sorted aggregate is pairwise descending in `pub_date`. -/
theorem sortedEntries_pairwise (items : List Entry) :
    List.Pairwise pubGE (sortedEntries items) :=
  List.sorted_insertionSort pubGE items

/-- The truncated aggregate is pairwise descending in `pub_date`. -/
theorem selectedEntries_pairwise (items : List Entry) :
    List.Pairwise pubGE (selectedEntries items) :=
  List.Pairwise.sublist (List.take_sublist _ _) (sortedEntries_pairwise items)

/-- The serialized item list is pairwise descending in `pubDate`. -/
theorem generate_pairwise (items : List Entry) :
    List.Pairwise (fun a b : RssItem => b.pubDate ≤ a.pubDate)
      (generate_rss_items items) := by
  rw [generate_rss_items, List.pairwise_map]
  exact selectedEntries_pairwise items

/-- The serialized item list never exceeds `MAX_ITEMS` items. -/
theorem generate_length_le (items : List Entry) :
    (generate_rss_items items).length ≤ MAX_ITEMS := by
  simp only [generate_rss_items, selectedEntries, List.length_map,
    List.length_take]
  exact min_le_left _ _

/-- On an already-sorted list of at most `MAX_ITEMS` entries, the writer
only renders. -/
theorem generate_of_sorted_short (l : List Entry)
    (hs : List.Pairwise pubGE l) (hl : l.length ≤ MAX_ITEMS) :
    generate_rss_items l = l.map renderItem := by
  rw [generate_rss_items, selectedEntries, sortedEntries,
    List.Sorted.insertionSort_eq hs, List.take_of_length_le hl]

/-! ### C3 -/

/-- C3: the serialized output has `min MAX_ITEMS items.length` items (so
at most `MAX_ITEMS`, and exactly 1000 of 1500), ordered by `pubDate`
descending; the kept entries together with the dropped tail of the sort
are a permutation of the input, the whole sort is descending, and every
dropped entry's `pub_date` is ≤ every kept entry's `pub_date` — the kept
entries are exactly the most recent ones. -/
theorem C3_sort_truncate (items : List Entry) :
    (generate_rss_items items).length = min MAX_ITEMS items.length ∧
    List.Pairwise (fun a b : RssItem => b.pubDate ≤ a.pubDate)
      (generate_rss_items items) ∧
    items.Perm (selectedEntries items ++
      (sortedEntries items).drop MAX_ITEMS) ∧
    List.Pairwise pubGE (sortedEntries items) ∧
    ((sortedEntries items).drop MAX_ITEMS).all (fun b =>
      (selectedEntries items).all
        (fun a => decide (b.pub_date ≤ a.pub_date))) = true := by
  refine ⟨?_, generate_pairwise items, ?_, sortedEntries_pairwise items, ?_⟩
  · simp [generate_rss_items, selectedEntries, sortedEntries,
      List.length_take, List.length_insertionSort]
  · have h := (List.perm_insertionSort pubGE items).symm
    rwa [← List.take_append_drop MAX_ITEMS (List.insertionSort pubGE items)]
      at h
  · have hp := sortedEntries_pairwise items
    rw [← List.take_append_drop MAX_ITEMS (sortedEntries items),
      List.pairwise_append] at hp
    rw [List.all_eq_true]
    intro b hb
    rw [List.all_eq_true]
    intro a ha
    simpa using hp.2.2 a ha b hb

/-! ### C9 -/

/-- How `get_existing_items` normalizes one of its own serialized items on
the next run: fields transposed back per the author/journal and
description/summary correspondences, marked old. -/
def readBack (i : RssItem) : Entry :=
  ⟨i.title, i.link, i.pubDate, i.description, i.author, i.guid, true⟩

/-- Re-reading a well-formed own output recovers its items, marked old. -/
theorem get_existing_of_items (l : List RssItem) (now : Int) (b : Bool) :
    get_existing_items true ⟨b, l.map rawOfItem⟩ now = l.map readBack := by
  simp only [get_existing_items, if_pos, List.map_map]
  rfl

/-- When every fetched entry's id is already seen, the aggregation loop
changes nothing. -/
theorem foldl_skip (queries : List String) :
    ∀ (fetched : List Entry) (all : List Entry) (seen : List String),
      (∀ e ∈ fetched, e.id ∈ seen) →
      fetched.foldl (aggregateStep queries) (all, seen) = (all, seen) := by
  intro fetched
  induction fetched with
  | nil => intros; rfl
  | cons e fs ih =>
    intro all seen h
    rw [List.foldl_cons, show aggregateStep queries (all, seen) e =
        (all, seen) by simp [aggregateStep, h e (by simp)]]
    exact ih all seen (fun e' he' => h e' (by simp [he']))

/-- When every fetched entry duplicates an old id, the aggregate is the
old entries unchanged. -/
theorem aggregate_skip (old fetched : List Entry) (queries : List String)
    (h : ∀ e ∈ fetched, e.id ∈ old.map Entry.id) :
    aggregate old fetched queries = old := by
  rw [aggregate, foldl_skip queries fetched old _ h]

/-- Sanitization is idempotent: already-clean text is unchanged. -/
theorem remove_illegal_idem (s : String) :
    remove_illegal_xml_chars (remove_illegal_xml_chars s) =
      remove_illegal_xml_chars s := by
  apply congrArg String.mk
  rw [remove_illegal_xml_chars, List.filter_filter]
  simp

/-- Serializing a re-read serialized entry reproduces the item: the title
is not re-prefixed (`is_old`), and re-sanitizing clean text is the
identity. -/
theorem renderItem_roundtrip (e : Entry) :
    renderItem (readBack (renderItem e)) = renderItem e := by
  simp [renderItem, readBack, outputTitle, remove_illegal_idem]

/-- Rendering after a round trip through the output file is rendering. -/
theorem generate_readBack (items : List Entry) :
    generate_rss_items ((generate_rss_items items).map readBack) =
      generate_rss_items items := by
  have hsorted : List.Pairwise pubGE
      ((generate_rss_items items).map readBack) := by
    rw [List.pairwise_map]
    exact generate_pairwise items
  have hlen : ((generate_rss_items items).map readBack).length ≤ MAX_ITEMS := by
    rw [List.length_map]
    exact generate_length_le items
  rw [generate_of_sorted_short _ hsorted hlen, generate_rss_items,
    List.map_map, List.map_map]
  exact List.map_congr_left (fun a _ => renderItem_roundtrip a)

/-- C9: one full pipeline pass over the previous run's output — the prior
output file parsed back by `get_existing_items` (field-faithfully, via
`rawOfItem`), no fetched entry carrying a new id, same queries — writes
exactly the same item list as the previous run; the surrounding feed
fields are fixed constants, so the document is byte-equivalent apart from
`lastBuildDate`. -/
theorem C9_idempotent (items fetched : List Entry) (queries : List String)
    (now : Int)
    (h : ∀ e ∈ fetched, e.id ∈ (generate_rss_items items).map RssItem.guid) :
    generate_rss_items
      (aggregate
        (get_existing_items true
          ⟨false, (generate_rss_items items).map rawOfItem⟩ now)
        fetched queries) =
    generate_rss_items items := by
  rw [get_existing_of_items, aggregate_skip]
  · exact generate_readBack items
  · intro e he
    rw [List.map_map]
    exact h e he

/-- C9 witness: a second run over the single-item output of a first run,
with nothing fetched, reproduces the output. -/
theorem C9_idempotent_witness :
    generate_rss_items
      (aggregate
        (get_existing_items true
          ⟨false, (generate_rss_items
            [mkEntry "Foo" "S" "Nature" 3 "i1" false]).map rawOfItem⟩ 7)
        [] ["q"]) =
    generate_rss_items [mkEntry "Foo" "S" "Nature" 3 "i1" false] :=
  C9_idempotent _ [] ["q"] 7 (by simp)

end GetRSS
